import Mathlib

set_option maxRecDepth 100000

/-!
Verification of the data pipeline of the Superstore Streamlit dashboard
(`app.py`): load → clean → filter → aggregate → export.

The pandas DataFrame is embedded shallowly as a `List Record`, where a
`Record` is one row after the type coercions of `load_data` (every cell an
`Option`, `none` modelling pandas `NaN`/`NaT`).  The CSV text layer is
embedded as a grid of cell strings (`List (List String)`): standard CSV
quoting makes the text ↔ cell-grid correspondence lossless, so the grid is
the faithful interface for the loader and the export.  Library primitives
that live outside the repository (pandas parsing/printing of cells, the
default NA-token list) are modelled from the spec, as marked on each such
definition.
-/

/-! ### Decimal digits as characters -/

/-- Character for a decimal digit (pandas prints numbers with ASCII digits). -/
def digitChar (d : Nat) : Char := Char.ofNat (48 + d)

/-- Numeric value of a decimal digit character. -/
def charToDigit (c : Char) : Nat := c.toNat - 48

/-- Test for an ASCII decimal digit. -/
def isDigitCh (c : Char) : Bool := decide (48 ≤ c.toNat) && decide (c.toNat ≤ 57)

/-- Value of a big-endian list of digit characters. -/
def charsToNat (l : List Char) : Nat := Nat.ofDigits 10 ((l.map charToDigit).reverse)

/-- Big-endian digit characters of a natural number (empty for 0). -/
def natCharsBE (n : Nat) : List Char := ((Nat.digits 10 n).map digitChar).reverse

/-- Big-endian digit characters of a natural number, nonempty (0 prints as "0"). -/
def natCharsNE (n : Nat) : List Char := if n = 0 then [Char.ofNat 48] else natCharsBE n

/-- Left-pad a character list with zeros to length `k`. -/
def padZeros (k : Nat) (l : List Char) : List Char := List.replicate (k - l.length) (Char.ofNat 48) ++ l

/-- Split a list at the first character failing `p` (the model's own `span`). -/
def spanP (p : Char → Bool) : List Char → List Char × List Char
  | [] => ([], [])
  | c :: l => if p c then (c :: (spanP p l).1, (spanP p l).2) else ([], c :: l)

/-- A calendar date, the model of a parsed pandas `Timestamp` (dates in this
pipeline are day-resolution). -/
structure Date where
  year : Nat
  month : Nat
  day : Nat
deriving DecidableEq

/-- Dates representable in the pipeline: what the date parser can produce. -/
def ValidDate (d : Date) : Prop :=
  d.year < 10000 ∧ 1 ≤ d.month ∧ d.month ≤ 12 ∧ 1 ≤ d.day ∧ d.day ≤ 31

/-- Four-digit zero-padded year, big-endian. -/
def pad4 (y : Nat) : List Char :=
  [digitChar (y / 1000 % 10), digitChar (y / 100 % 10), digitChar (y / 10 % 10), digitChar (y % 10)]

/-- Two-digit zero-padded field, big-endian. -/
def pad2 (m : Nat) : List Char := [digitChar (m / 10 % 10), digitChar (m % 10)]

/-- Modelled from the spec: pandas' cell text for an all-midnight `Timestamp`
in `to_csv` output — ISO `YYYY-MM-DD`. -/
def showDate (d : Date) : String :=
  String.mk (pad4 d.year ++ '-' :: (pad2 d.month ++ '-' :: pad2 d.day))

/-- Modelled from the spec: pandas `to_datetime(..., errors='coerce')` on one
cell — parses ISO `YYYY-MM-DD`, yields `none` (NaT) on anything unparseable
or out of the representable range. -/
def parseDate (s : String) : Option Date :=
  match spanP isDigitCh s.data with
  | (ys, c1 :: r2) =>
    match spanP isDigitCh r2 with
    | (ms, c2 :: ds) =>
      if c1 = '-' && c2 = '-' && !ys.isEmpty && !ms.isEmpty && !ds.isEmpty
          && ds.all isDigitCh then
        let y := charsToNat ys
        let m := charsToNat ms
        let d := charsToNat ds
        if y < 10000 ∧ 1 ≤ m ∧ m ≤ 12 ∧ 1 ≤ d ∧ d ≤ 31 then some ⟨y, m, d⟩ else none
      else none
    | _ => none
  | _ => none

/-- The month bucket key of line 178: `OrderDate.dt.to_period('M').astype(str)`
— `"YYYY-MM"` for a real date, the string `"NaT"` for a missing one. -/
def monthKey : Option Date → String
  | none => String.mk ['N', 'a', 'T']
  | some d => String.mk (pad4 d.year ++ '-' :: pad2 d.month)

/-- Modelled from the spec: pandas `to_numeric(..., errors='coerce')` on one
unsigned cell body — digits with an optional fractional part. -/
def parseNumCore (l : List Char) : Option Rat :=
  match spanP isDigitCh l with
  | (ip, []) => if ip.isEmpty then none else some ((charsToNat ip : Nat) : Rat)
  | (ip, c :: fp) =>
    if c = '.' && !ip.isEmpty && !fp.isEmpty && fp.all isDigitCh then
      some (((charsToNat ip * 10 ^ fp.length + charsToNat fp : Nat) : Rat) / (10 : Rat) ^ fp.length)
    else none

/-- Modelled from the spec: pandas `to_numeric(..., errors='coerce')` on one
cell — a plain decimal literal with optional leading minus; anything else
(including scientific notation, which the printer never emits for this data)
is `none`. -/
def parseNum (s : String) : Option Rat :=
  match s.data with
  | [] => none
  | c :: l => if c = '-' then (parseNumCore l).map (fun x => -x) else parseNumCore (c :: l)

/-- Number of fractional digits the printer uses for `q` (any `k` with
`q.den ∣ 10 ^ k` is value-faithful; this one is computable and large enough). -/
def decExp (q : Rat) : Nat := 2 * Nat.log 2 q.den + 2

/-- Rationals exactly representable as decimal fractions — the possible
numeric cell values of the pipeline (floats print and re-parse exactly). -/
def DecimalRat (q : Rat) : Prop := q.den ∣ 10 ^ decExp q

/-- Modelled from the spec: pandas' cell text in `to_csv` for a float value —
a plain signed decimal with a fractional part, value-faithful for every
`DecimalRat` (floats round-trip through their shortest repr in pandas). -/
def showNum (q : Rat) : String :=
  String.mk ((if q.num < 0 then ['-'] else [])
    ++ natCharsNE (q.num.natAbs * (10 ^ decExp q / q.den) / 10 ^ decExp q)
    ++ '.' :: padZeros (decExp q) (natCharsBE (q.num.natAbs * (10 ^ decExp q / q.den) % 10 ^ decExp q)))

/-- One row of the DataFrame after the loader's type coercions (lines 78-82
of `app.py`): every cell is optional, `none` modelling pandas `NaN`/`NaT`.
`Month` is the derived column assigned on line 178 (`none` until then). -/
structure Record where
  OrderID : Option String
  OrderDate : Option Date
  ShipDate : Option Date
  Sales : Option Rat
  Profit : Option Rat
  Region : Option String
  Segment : Option String
  Category : Option String
  SubCategory : Option String
  CustomerName : Option String
  Month : Option String
deriving DecidableEq

/-- Modelled from the spec: the default NA tokens that `read_csv` converts to
missing values (a representative subset of pandas' default list; `"NaT"` is
not among them). -/
def naTokens : List String :=
  [String.mk [], String.mk ['N', 'A'], String.mk ['N', '/', 'A'], String.mk ['N', 'a', 'N'],
    String.mk ['n', 'a', 'n'], String.mk ['N', 'U', 'L', 'L'], String.mk ['n', 'u', 'l', 'l'],
    String.mk ['N', 'o', 'n', 'e'], String.mk ['n', '/', 'a'], String.mk ['<', 'N', 'A', '>']]

/-- Modelled from the spec: `read_csv`'s NA conversion of one text cell. -/
def readCell (s : String) : Option String := if s ∈ naTokens then none else some s

/-- Column-name normalization of line 74: strip surrounding whitespace,
replace spaces with underscores, remove periods. -/
def normalizeCol (s : String) : String :=
  String.mk ((((s.data.dropWhile Char.isWhitespace).reverse.dropWhile
    Char.isWhitespace).reverse.map (fun c => if c = ' ' then '_' else c)).filter (fun c => c != '.'))

/-- Indices of the schema columns inside the header of a delimited input. -/
structure ColIdx where
  oid : Nat
  odate : Nat
  sdate : Nat
  sales : Nat
  profit : Nat
  region : Nat
  segment : Nat
  category : Nat
  subcat : Nat
  customer : Nat
  month : Option Nat

/-- Cell of `row` in column `i` after NA conversion (a short row yields a
missing value). -/
def readField (row : List String) (i : Nat) : Option String := (row[i]?).bind readCell

/-- The per-row type coercions of lines 78-82 applied to one text row. -/
def buildRecord (ix : ColIdx) (row : List String) : Record :=
  { OrderID := readField row ix.oid
    OrderDate := (readField row ix.odate).bind parseDate
    ShipDate := (readField row ix.sdate).bind parseDate
    Sales := (readField row ix.sales).bind parseNum
    Profit := (readField row ix.profit).bind parseNum
    Region := readField row ix.region
    Segment := readField row ix.segment
    Category := readField row ix.category
    SubCategory := readField row ix.subcat
    CustomerName := readField row ix.customer
    Month := ix.month.bind (fun i => readField row i) }

/-- The mandatory-field row filter of line 84:
`dropna(subset=['Sales','Profit','Region','Segment','Category','SubCategory','CustomerName'])`. -/
def dropna (cs : List Record) : List Record :=
  cs.filter (fun r => r.Sales.isSome && r.Profit.isSome && r.Region.isSome && r.Segment.isSome
    && r.Category.isSome && r.SubCategory.isSome && r.CustomerName.isSome)

/-- `load_data` (lines 67-85) over a delimited-text grid: header lookup by
normalized column name (the encoding-artifact column dropped on line 76 is
outside the modelled schema, so that drop is a no-op here), per-cell type
coercions, then the mandatory-field row filter.  `none` models the fatal
load failure when a required column is absent. -/
def load_data (g : List (List String)) : Option (List Record) :=
  match g with
  | [] => none
  | hdr :: rows =>
    let h := hdr.map normalizeCol
    match h.findIdx? (· == (r"OrderID")), h.findIdx? (· == (r"OrderDate")),
        h.findIdx? (· == (r"ShipDate")), h.findIdx? (· == (r"Sales")),
        h.findIdx? (· == (r"Profit")), h.findIdx? (· == (r"Region")),
        h.findIdx? (· == (r"Segment")), h.findIdx? (· == (r"Category")),
        h.findIdx? (· == (r"SubCategory")), h.findIdx? (· == (r"CustomerName")) with
    | some i0, some i1, some i2, some i3, some i4, some i5, some i6, some i7, some i8, some i9 =>
      some (dropna (rows.map (buildRecord
        ⟨i0, i1, i2, i3, i4, i5, i6, i7, i8, i9, h.findIdx? (· == (r"Month"))⟩)))
    | _, _, _, _, _, _, _, _, _, _ => none

/-- Text of a string cell (missing prints as empty, as in pandas). -/
def cellStr : Option String → String
  | none => (r"")
  | some s => s

/-- Text of a date cell (`NaT` prints as empty in `to_csv`). -/
def cellDate : Option Date → String
  | none => (r"")
  | some d => showDate d

/-- Text of a numeric cell. -/
def cellNum : Option Rat → String
  | none => (r"")
  | some q => showNum q

/-- One exported row of `to_csv(index=False)` (line 268), in schema order,
including the `Month` column present at export time. -/
def writeRow (r : Record) : List String :=
  [cellStr r.OrderID, cellDate r.OrderDate, cellDate r.ShipDate, cellNum r.Sales,
    cellNum r.Profit, cellStr r.Region, cellStr r.Segment, cellStr r.Category,
    cellStr r.SubCategory, cellStr r.CustomerName, cellStr r.Month]

/-- Header row of the export. -/
def exportHeader : List String :=
  [(r"OrderID"), (r"OrderDate"), (r"ShipDate"), (r"Sales"), (r"Profit"), (r"Region"),
    (r"Segment"), (r"Category"), (r"SubCategory"), (r"CustomerName"), (r"Month")]

/-- `df_filtered.to_csv(index=False)` (line 268) as a cell grid. -/
def to_csv (rs : List Record) : List (List String) := exportHeader :: rs.map writeRow

/-- The Month-column assignment of line 178, one row. -/
def addMonth (r : Record) : Record := { r with Month := some (monthKey r.OrderDate) }

/-- The Month-column assignment of line 178, whole frame. -/
def addMonthAll (rs : List Record) : List Record := rs.map addMonth

/-- pandas `Series.isin` on one optional cell (missing is never a member). -/
def isin (o : Option String) (sel : List String) : Bool :=
  match o with
  | some v => sel.contains v
  | none => false

/-- The boolean-mask filter of lines 121-125. -/
def applyFilter (rs : List Record) (selR selC selS : List String) : List Record :=
  rs.filter (fun r => isin r.Region selR && isin r.Category selC && isin r.SubCategory selS)

/-- `sorted(df[col].unique())` (lines 103-117): the default selection offered
for one dimension. -/
def defaultSel (key : Record → Option String) (rs : List Record) : List String :=
  List.insertionSort (fun a b : String => a ≤ b) ((rs.filterMap key).dedup)

/-- Sum of a numeric column over rows (pandas `sum` skips missing cells and
yields 0 on an empty frame). -/
def colSum (f : Record → Option Rat) (rs : List Record) : Rat := (rs.filterMap f).sum

/-- Distinct group keys of a `groupby`, ascending (pandas sorts group keys
and drops missing ones). -/
def groupKeys (key : Record → Option String) (rs : List Record) : List String :=
  List.insertionSort (fun a b : String => a ≤ b) ((rs.filterMap key).dedup)

/-- `groupby(key)[col].sum()`: per-group sums in ascending key order. -/
def groupSum (key : Record → Option String) (f : Record → Option Rat) (rs : List Record) :
    List (String × Rat) :=
  (groupKeys key rs).map (fun k => (k, colSum f (rs.filter (fun r => key r == some k))))

/-- `Series.sort_values(ascending=False)`: numpy's sort, stable on ties for
these small inputs (insertion sort). -/
def sortValuesDesc (l : List (String × Rat)) : List (String × Rat) :=
  List.insertionSort (fun a b => b.2 ≤ a.2) l

/-- Line 147: top five customers by summed sales. -/
def top_customers (rs : List Record) : List (String × Rat) :=
  (sortValuesDesc (groupSum (fun r => r.CustomerName) (fun r => r.Sales) rs)).take 5

/-- Line 162: sales share by segment. -/
def segment_sales (rs : List Record) : List (String × Rat) :=
  groupSum (fun r => r.Segment) (fun r => r.Sales) rs

/-- Lines 178-180: the monthly time series (Month bucket, summed Sales and
Profit), ascending by bucket key. -/
def monthly (rs : List Record) : List (String × Rat × Rat) :=
  (groupKeys (fun r => r.Month) (addMonthAll rs)).map (fun k =>
    (k, colSum (fun r => r.Sales) ((addMonthAll rs).filter (fun r => r.Month == some k)),
      colSum (fun r => r.Profit) ((addMonthAll rs).filter (fun r => r.Month == some k))))

/-- Line 218: sales by region, descending. -/
def region_sales (rs : List Record) : List (String × Rat) :=
  sortValuesDesc (groupSum (fun r => r.Region) (fun r => r.Sales) rs)

/-- Line 232: sales by category, descending. -/
def category_sales (rs : List Record) : List (String × Rat) :=
  sortValuesDesc (groupSum (fun r => r.Category) (fun r => r.Sales) rs)

/-- Line 250: top ten sub-categories by summed profit. -/
def subcategory_profit (rs : List Record) : List (String × Rat) :=
  (sortValuesDesc (groupSum (fun r => r.SubCategory) (fun r => r.Profit) rs)).take 10

/-- KPI of line 133: total sales. -/
def total_sales (rs : List Record) : Rat := colSum (fun r => r.Sales) rs

/-- KPI of line 135: total profit. -/
def total_profit (rs : List Record) : Rat := colSum (fun r => r.Profit) rs

/-- KPI of line 137: `df_filtered['OrderID'].nunique()` (missing IDs are not
counted by pandas `nunique`). -/
def n_orders (rs : List Record) : Nat := ((rs.filterMap (fun r => r.OrderID)).dedup).length

/-- Invariants of every record the loader can produce (together with any
Month column the dashboard later assigns): mandatory fields present, string
cells are not NA tokens, dates and numbers are in the printable range. -/
structure CleanRec (r : Record) : Prop where
  oid : ∀ s, r.OrderID = some s → s ∉ naTokens
  odate : ∀ d, r.OrderDate = some d → ValidDate d
  sdate : ∀ d, r.ShipDate = some d → ValidDate d
  sales : ∀ q, r.Sales = some q → DecimalRat q
  profit : ∀ q, r.Profit = some q → DecimalRat q
  region : ∀ s, r.Region = some s → s ∉ naTokens
  segment : ∀ s, r.Segment = some s → s ∉ naTokens
  category : ∀ s, r.Category = some s → s ∉ naTokens
  subcat : ∀ s, r.SubCategory = some s → s ∉ naTokens
  customer : ∀ s, r.CustomerName = some s → s ∉ naTokens
  month : ∀ s, r.Month = some s → s ∉ naTokens
  salesSome : r.Sales.isSome = true
  profitSome : r.Profit.isSome = true
  regionSome : r.Region.isSome = true
  segmentSome : r.Segment.isSome = true
  categorySome : r.Category.isSome = true
  subcatSome : r.SubCategory.isSome = true
  customerSome : r.CustomerName.isSome = true

/-- Total order on `(key, value)` pairs: value descending, ties by key
ascending — the order `sort_values(ascending=False)` realizes on the
key-sorted output of a groupby. -/
def lexLe (a b : String × Rat) : Prop := b.2 < a.2 ∨ (a.2 = b.2 ∧ a.1 ≤ b.1)

instance : DecidableRel lexLe := fun a b => by
  unfold lexLe
  infer_instance

instance : IsTotal (String × Rat) lexLe where
  total a b := by
    unfold lexLe
    rcases lt_trichotomy a.2 b.2 with h | h | h
    · exact Or.inr (Or.inl h)
    · rcases le_total a.1 b.1 with h' | h'
      · exact Or.inl (Or.inr ⟨h, h'⟩)
      · exact Or.inr (Or.inr ⟨h.symm, h'⟩)
    · exact Or.inl (Or.inl h)

instance : IsTrans (String × Rat) lexLe where
  trans a b c hab hbc := by
    unfold lexLe at hab hbc ⊢
    rcases hab with h1 | ⟨h1, h1'⟩ <;> rcases hbc with h2 | ⟨h2, h2'⟩
    · exact Or.inl (h2.trans h1)
    · exact Or.inl (h2 ▸ h1)
    · exact Or.inl (h1 ▸ h2)
    · exact Or.inr ⟨h1.trans h2, h1'.trans h2'⟩

instance : IsAntisymm (String × Rat) lexLe where
  antisymm a b hab hba := by
    unfold lexLe at hab hba
    rcases hab with h1 | ⟨h1, h1'⟩
    · rcases hba with h2 | ⟨h2, h2'⟩
      · exact absurd h1 (not_lt_of_lt h2)
      · exact absurd h1 (h2 ▸ lt_irrefl _)
    · rcases hba with h2 | ⟨h2, h2'⟩
      · exact absurd h2 (h1 ▸ lt_irrefl _)
      · exact Prod.ext (le_antisymm h1' h2') h1

/-- Everything the presentation layer consumes in one render pass. -/
structure DashOutputs where
  totalSales : Rat
  totalProfit : Rat
  orders : Nat
  topCustomers : List (String × Rat)
  segmentSales : List (String × Rat)
  monthlySeries : List (String × Rat × Rat)
  regionSales : List (String × Rat)
  categorySales : List (String × Rat)
  subcategoryProfit : List (String × Rat)
  exportGrid : List (List String)

/-- One render pass of the script (lines 119-276): boolean-mask filtering
produces an independent derived frame (pandas copies on boolean indexing),
the Month column is assigned on that derived frame only (line 178), every
aggregation reads the derived frame, and the export serializes it.  The
final state returns the source frame alongside the outputs. -/
def runDashboard (df : List Record) (selR selC selS : List String) :
    (List Record) × DashOutputs :=
  let dfF := applyFilter df selR selC selS
  let dfM := addMonthAll dfF
  (df,
    { totalSales := total_sales dfF
      totalProfit := total_profit dfF
      orders := n_orders dfF
      topCustomers := top_customers dfF
      segmentSales := segment_sales dfF
      monthlySeries := monthly dfF
      regionSales := region_sales dfF
      categorySales := category_sales dfF
      subcategoryProfit := subcategory_profit dfF
      exportGrid := to_csv dfM })

/-- A single-field record template for concrete scenarios. -/
def mkRec (name : String) (sales : Rat) : Record :=
  { OrderID := some (String.mk ['o']), OrderDate := some ⟨2020, 1, 15⟩,
    ShipDate := none, Sales := some sales, Profit := some 0,
    Region := some (String.mk ['W']), Segment := some (String.mk ['C']),
    Category := some (String.mk ['T']), SubCategory := some (String.mk ['P']),
    CustomerName := some name, Month := none }

/-- A two-line input grid in the loader's schema (no Month column, as in the
original file). -/
def demoGrid : List (List String) :=
  [[String.mk ['O', 'r', 'd', 'e', 'r', 'I', 'D'],
    String.mk ['O', 'r', 'd', 'e', 'r', 'D', 'a', 't', 'e'],
    String.mk ['S', 'h', 'i', 'p', 'D', 'a', 't', 'e'],
    String.mk ['S', 'a', 'l', 'e', 's'],
    String.mk ['P', 'r', 'o', 'f', 'i', 't'],
    String.mk ['R', 'e', 'g', 'i', 'o', 'n'],
    String.mk ['S', 'e', 'g', 'm', 'e', 'n', 't'],
    String.mk ['C', 'a', 't', 'e', 'g', 'o', 'r', 'y'],
    String.mk ['S', 'u', 'b', 'C', 'a', 't', 'e', 'g', 'o', 'r', 'y'],
    String.mk ['C', 'u', 's', 't', 'o', 'm', 'e', 'r', 'N', 'a', 'm', 'e']],
   [String.mk ['1'],
    String.mk ['2', '0', '2', '0', '-', '0', '1', '-', '1', '5'],
    String.mk [],
    String.mk ['1', '0', '0', '.', '5'],
    String.mk ['-', '3', '.', '2', '5'],
    String.mk ['W', 'e', 's', 't'],
    String.mk ['C', 'o', 'n', 's'],
    String.mk ['T', 'e', 'c', 'h'],
    String.mk ['P', 'h', 'o', 'n', 'e', 's'],
    String.mk ['A', 'l', 'i', 'c', 'e']]]

/-- The one record the loader produces from `demoGrid`. -/
def demoRec : Record :=
  { OrderID := some (String.mk ['1']), OrderDate := some ⟨2020, 1, 15⟩, ShipDate := none,
    Sales := some ((201 : Rat) / 2), Profit := some (-(13 : Rat) / 4),
    Region := some (String.mk ['W', 'e', 's', 't']),
    Segment := some (String.mk ['C', 'o', 'n', 's']),
    Category := some (String.mk ['T', 'e', 'c', 'h']),
    SubCategory := some (String.mk ['P', 'h', 'o', 'n', 'e', 's']),
    CustomerName := some (String.mk ['A', 'l', 'i', 'c', 'e']), Month := none }

/-- The cleaned table the loader produces from `demoGrid`. -/
def demoTable : List Record := [demoRec]

/-! ### Lemmas and claim theorems -/

theorem charToDigit_digitChar {d : Nat} (h : d < 10) : charToDigit (digitChar d) = d := by
  interval_cases d <;> decide

theorem isDigitCh_digitChar {d : Nat} (h : d < 10) : isDigitCh (digitChar d) = true := by
  interval_cases d <;> decide

theorem digitChar_ne_dash {d : Nat} (h : d < 10) : digitChar d ≠ '-' := by
  interval_cases d <;> decide

theorem digitChar_ne_dot {d : Nat} (h : d < 10) : digitChar d ≠ '.' := by
  interval_cases d <;> decide

theorem digitChar_lt_N {d : Nat} (h : d < 10) : digitChar d < 'N' := by
  interval_cases d <;> decide

theorem charsToNat_natCharsBE (n : Nat) : charsToNat (natCharsBE n) = n := by
  unfold charsToNat natCharsBE
  rw [List.map_reverse, List.reverse_reverse, List.map_map]
  have : (Nat.digits 10 n).map (charToDigit ∘ digitChar) = Nat.digits 10 n := by
    conv_rhs => rw [← List.map_id (Nat.digits 10 n)]
    apply List.map_congr_left
    intro d hd
    simp only [Function.comp_apply, id_eq]
    exact charToDigit_digitChar (Nat.digits_lt_base (by norm_num) hd)
  rw [this, Nat.ofDigits_digits]

theorem natCharsBE_digits (n : Nat) : ∀ c ∈ natCharsBE n, isDigitCh c = true := by
  intro c hc
  unfold natCharsBE at hc
  rw [List.mem_reverse, List.mem_map] at hc
  obtain ⟨d, hd, rfl⟩ := hc
  exact isDigitCh_digitChar (Nat.digits_lt_base (by norm_num) hd)

theorem natCharsNE_digits (n : Nat) : ∀ c ∈ natCharsNE n, isDigitCh c = true := by
  intro c hc
  unfold natCharsNE at hc
  split at hc
  · simp at hc
    subst hc
    decide
  · exact natCharsBE_digits n c hc

theorem natCharsNE_ne_nil (n : Nat) : natCharsNE n ≠ [] := by
  unfold natCharsNE
  split
  · simp
  · unfold natCharsBE
    simp only [ne_eq, List.reverse_eq_nil_iff, List.map_eq_nil_iff]
    exact Nat.digits_ne_nil_iff_ne_zero.mpr (by assumption)

theorem ofDigits_replicate_zero (j : Nat) : Nat.ofDigits 10 (List.replicate j 0) = 0 := by
  induction j with
  | zero => simp [Nat.ofDigits]
  | succ k ih => simp [List.replicate_succ, Nat.ofDigits_cons, ih]

theorem charsToNat_padZeros (k : Nat) (l : List Char) :
    charsToNat (padZeros k l) = charsToNat l := by
  unfold charsToNat padZeros
  rw [List.map_append, List.reverse_append, List.map_replicate, List.reverse_replicate]
  rw [Nat.ofDigits_append]
  have h0 : charToDigit (Char.ofNat 48) = 0 := rfl
  rw [h0, ofDigits_replicate_zero, Nat.mul_zero, Nat.add_zero]

theorem padZeros_digits (k : Nat) (l : List Char) (h : ∀ c ∈ l, isDigitCh c = true) :
    ∀ c ∈ padZeros k l, isDigitCh c = true := by
  intro c hc
  unfold padZeros at hc
  rw [List.mem_append] at hc
  rcases hc with hc | hc
  · rw [List.mem_replicate] at hc
    rw [hc.2]
    decide
  · exact h c hc

theorem spanP_append {p : Char → Bool} {l1 : List Char} (c0 : Char) (l2 : List Char)
    (h1 : ∀ c ∈ l1, p c = true) (h2 : p c0 = false) :
    spanP p (l1 ++ c0 :: l2) = (l1, c0 :: l2) := by
  induction l1 with
  | nil => simp [spanP, h2]
  | cons a t ih =>
    have ha : p a = true := h1 a (by simp)
    have ht : ∀ c ∈ t, p c = true := fun c hc => h1 c (by simp [hc])
    simp [spanP, ha, ih ht]

theorem pad4_digits (y : Nat) : ∀ c ∈ pad4 y, isDigitCh c = true := by
  intro c hc
  unfold pad4 at hc
  simp only [List.mem_cons, List.not_mem_nil, or_false] at hc
  rcases hc with rfl | rfl | rfl | rfl <;> exact isDigitCh_digitChar (Nat.mod_lt _ (by norm_num))

theorem pad2_digits (m : Nat) : ∀ c ∈ pad2 m, isDigitCh c = true := by
  intro c hc
  unfold pad2 at hc
  simp only [List.mem_cons, List.not_mem_nil, or_false] at hc
  rcases hc with rfl | rfl <;> exact isDigitCh_digitChar (Nat.mod_lt _ (by norm_num))

theorem charsToNat_pad4 {y : Nat} (h : y < 10000) : charsToNat (pad4 y) = y := by
  unfold charsToNat pad4
  simp only [List.map_cons, List.map_nil, List.reverse_cons, List.reverse_nil, List.nil_append,
    List.cons_append, Nat.ofDigits_cons, Nat.ofDigits_nil]
  rw [charToDigit_digitChar (Nat.mod_lt _ (by norm_num)),
    charToDigit_digitChar (Nat.mod_lt _ (by norm_num)),
    charToDigit_digitChar (Nat.mod_lt _ (by norm_num)),
    charToDigit_digitChar (Nat.mod_lt _ (by norm_num))]
  omega

theorem charsToNat_pad2 {m : Nat} (h : m < 100) : charsToNat (pad2 m) = m := by
  unfold charsToNat pad2
  simp only [List.map_cons, List.map_nil, List.reverse_cons, List.reverse_nil, List.nil_append,
    List.cons_append, Nat.ofDigits_cons, Nat.ofDigits_nil]
  rw [charToDigit_digitChar (Nat.mod_lt _ (by norm_num)),
    charToDigit_digitChar (Nat.mod_lt _ (by norm_num))]
  omega

theorem parseDate_showDate {d : Date} (h : ValidDate d) : parseDate (showDate d) = some d := by
  obtain ⟨hy, hm1, hm2, hd1, hd2⟩ := h
  unfold parseDate showDate
  have hdata : (String.mk (pad4 d.year ++ '-' :: (pad2 d.month ++ '-' :: pad2 d.day))).data
      = pad4 d.year ++ '-' :: (pad2 d.month ++ '-' :: pad2 d.day) := rfl
  rw [hdata]
  rw [spanP_append '-' _ (pad4_digits d.year) (by decide)]
  dsimp only
  rw [spanP_append '-' _ (pad2_digits d.month) (by decide)]
  dsimp only
  have h4 : (pad4 d.year).isEmpty = false := rfl
  have h2a : (pad2 d.month).isEmpty = false := rfl
  have h2b : (pad2 d.day).isEmpty = false := rfl
  have hall : (pad2 d.day).all isDigitCh = true := List.all_eq_true.mpr (pad2_digits d.day)
  rw [if_pos (by simp [h4, h2a, h2b, hall])]
  rw [charsToNat_pad4 hy, charsToNat_pad2 (by omega), charsToNat_pad2 (by omega)]
  rw [if_pos (by omega)]

theorem monthKey_some_head (d : Date) :
    (monthKey (some d)).data = digitChar (d.year / 1000 % 10)
      :: (digitChar (d.year / 100 % 10) :: (digitChar (d.year / 10 % 10)
      :: (digitChar (d.year % 10) :: ('-' :: pad2 d.month)))) := rfl

theorem monthKey_some_lt_nat (d : Date) : monthKey (some d) < monthKey none := by
  rw [String.lt_iff_toList_lt]
  exact List.Lex.rel (digitChar_lt_N (Nat.mod_lt _ (by norm_num)))

theorem monthKey_some_ne_nat (d : Date) : monthKey (some d) ≠ monthKey none :=
  ne_of_lt (monthKey_some_lt_nat d)

theorem charsToNat_natCharsNE (n : Nat) : charsToNat (natCharsNE n) = n := by
  unfold natCharsNE
  split
  · subst n
    decide
  · exact charsToNat_natCharsBE n

theorem isDigitCh_ne_dash {c : Char} (h : isDigitCh c = true) : c ≠ '-' := by
  intro h'
  subst h'
  exact absurd h (by decide)

theorem isDigitCh_ne_dot {c : Char} (h : isDigitCh c = true) : c ≠ '.' := by
  intro h'
  subst h'
  exact absurd h (by decide)

theorem length_padZeros_of_le {k : Nat} {l : List Char} (h : l.length ≤ k) :
    (padZeros k l).length = k := by
  unfold padZeros
  rw [List.length_append, List.length_replicate]
  omega

theorem natCharsBE_length_le {F k : Nat} (hF : F < 10 ^ k) : (natCharsBE F).length ≤ k := by
  unfold natCharsBE
  rw [List.length_reverse, List.length_map]
  rcases Nat.eq_zero_or_pos F with rfl | hF0
  · simp
  · rw [Nat.digits_len 10 F (by norm_num) (by omega)]
    have := (Nat.lt_pow_iff_log_lt (by norm_num : (1:Nat) < 10) (by omega : F ≠ 0)).mp hF
    omega

theorem parseNumCore_print {I F k : Nat} (hk : 0 < k) (hF : F < 10 ^ k) :
    parseNumCore (natCharsNE I ++ '.' :: padZeros k (natCharsBE F))
      = some (((I * 10 ^ k + F : Nat) : Rat) / (10 : Rat) ^ k) := by
  have hlen : (padZeros k (natCharsBE F)).length = k :=
    length_padZeros_of_le (natCharsBE_length_le hF)
  unfold parseNumCore
  rw [spanP_append '.' _ (natCharsNE_digits I) (by decide)]
  dsimp only
  rw [if_pos]
  · rw [charsToNat_natCharsNE, charsToNat_padZeros, charsToNat_natCharsBE, hlen]
  · have h1 : (natCharsNE I).isEmpty = false := List.isEmpty_eq_false.mpr (natCharsNE_ne_nil I)
    have h2 : (padZeros k (natCharsBE F)).isEmpty = false := by
      rw [List.isEmpty_eq_false]
      intro hnil
      rw [hnil] at hlen
      simp at hlen
      omega
    have h3 : (padZeros k (natCharsBE F)).all isDigitCh = true :=
      List.all_eq_true.mpr (padZeros_digits k _ (natCharsBE_digits F))
    simp [h1, h2, h3]

theorem abs_rat_eq_natAbs_div (q : Rat) :
    |q| = ((q.num.natAbs : Nat) : Rat) / ((q.den : Nat) : Rat) := by
  conv_lhs => rw [← Rat.num_div_den q]
  rw [abs_div]
  have h1 : |((q.num : Int) : Rat)| = ((q.num.natAbs : Nat) : Rat) := by
    rw [Int.cast_natAbs]
    rw [Int.cast_abs]
  have h2 : |((q.den : Nat) : Rat)| = ((q.den : Nat) : Rat) := abs_of_nonneg (by positivity)
  rw [h1, h2]

theorem mant_div_pow_eq_abs {q : Rat} (hdec : DecimalRat q) :
    ((q.num.natAbs * (10 ^ decExp q / q.den) : Nat) : Rat) / (10 : Rat) ^ decExp q = |q| := by
  have hden : ((q.den : Nat) : Rat) ≠ 0 := by
    exact_mod_cast q.den_ne_zero
  have h10 : ((10 : Rat)) ^ decExp q ≠ 0 := by positivity
  have hNat : q.num.natAbs * (10 ^ decExp q / q.den) * q.den = q.num.natAbs * 10 ^ decExp q := by
    rw [mul_assoc, Nat.div_mul_cancel hdec]
  rw [abs_rat_eq_natAbs_div, div_eq_div_iff h10 hden]
  exact_mod_cast hNat

theorem showNum_parse {q : Rat} (hdec : DecimalRat q) : parseNum (showNum q) = some q := by
  have hk : 0 < decExp q := by unfold decExp; omega
  have hF : q.num.natAbs * (10 ^ decExp q / q.den) % 10 ^ decExp q < 10 ^ decExp q :=
    Nat.mod_lt _ (by positivity)
  have hmant : q.num.natAbs * (10 ^ decExp q / q.den) / 10 ^ decExp q * 10 ^ decExp q
      + q.num.natAbs * (10 ^ decExp q / q.den) % 10 ^ decExp q
      = q.num.natAbs * (10 ^ decExp q / q.den) := by
    conv_lhs => rw [Nat.mul_comm]
    exact Nat.div_add_mod _ _
  have hcore : parseNumCore (natCharsNE (q.num.natAbs * (10 ^ decExp q / q.den) / 10 ^ decExp q)
      ++ '.' :: padZeros (decExp q) (natCharsBE (q.num.natAbs * (10 ^ decExp q / q.den) % 10 ^ decExp q)))
      = some |q| := by
    rw [parseNumCore_print hk hF, hmant, mant_div_pow_eq_abs hdec]
  unfold showNum parseNum
  by_cases hneg : q.num < 0
  · rw [if_pos hneg]
    show (match ('-' :: (natCharsNE _ ++ '.' :: padZeros _ (natCharsBE _)) : List Char) with
      | [] => none
      | c :: l => if c = '-' then (parseNumCore l).map (fun x => -x) else parseNumCore (c :: l)) = some q
    dsimp only
    rw [if_pos rfl, hcore]
    show some (-|q|) = some q
    rw [abs_of_neg (Rat.num_neg.mp hneg), neg_neg]
  · rw [if_neg hneg]
    obtain ⟨c, t, hct⟩ := List.exists_cons_of_ne_nil (natCharsNE_ne_nil
      (q.num.natAbs * (10 ^ decExp q / q.den) / 10 ^ decExp q))
    show (match ([] ++ (natCharsNE _ ++ '.' :: padZeros _ (natCharsBE _)) : List Char) with
      | [] => none
      | c :: l => if c = '-' then (parseNumCore l).map (fun x => -x) else parseNumCore (c :: l)) = some q
    rw [List.nil_append, hct, List.cons_append]
    dsimp only
    have hcd : isDigitCh c = true := by
      apply natCharsNE_digits
      rw [hct]
      exact List.mem_cons_self c t
    rw [if_neg (isDigitCh_ne_dash hcd), ← List.cons_append, ← hct, hcore]
    show some |q| = some q
    rw [abs_of_nonneg (Rat.num_nonneg.mp (by omega))]

theorem pow10_eq_pow2_mul_pow5 (e : Nat) : (10 : Nat) ^ e = 2 ^ e * 5 ^ e := by
  rw [← Nat.mul_pow]

theorem dvd_pow10_decExp {den e : Nat} (h : den ∣ 10 ^ e) :
    den ∣ 10 ^ (2 * Nat.log 2 den + 2) := by
  rw [pow10_eq_pow2_mul_pow5] at h
  obtain ⟨d1, d2, h1, h2, hd⟩ := exists_dvd_and_dvd_of_dvd_mul h
  obtain ⟨i, hi, rfl⟩ := (Nat.dvd_prime_pow Nat.prime_two).mp h1
  obtain ⟨j, hj, rfl⟩ := (Nat.dvd_prime_pow Nat.prime_five).mp h2
  subst hd
  have hpos : 0 < 2 ^ i * 5 ^ j := by positivity
  have hiK : i ≤ Nat.log 2 (2 ^ i * 5 ^ j) := by
    apply (Nat.pow_le_iff_le_log (by norm_num) (by omega)).mp
    exact Nat.le_of_dvd hpos (dvd_mul_right _ _)
  have hjK : j ≤ Nat.log 2 (2 ^ i * 5 ^ j) := by
    apply (Nat.pow_le_iff_le_log (by norm_num) (by omega)).mp
    calc (2 : Nat) ^ j ≤ 5 ^ j := Nat.pow_le_pow_left (by norm_num) j
    _ ≤ 2 ^ i * 5 ^ j := Nat.le_of_dvd hpos (dvd_mul_left _ _)
  rw [pow10_eq_pow2_mul_pow5]
  exact mul_dvd_mul (pow_dvd_pow 2 (by omega)) (pow_dvd_pow 5 (by omega))

theorem den_div_pow10_dvd (a e : Nat) : (((a : Nat) : Rat) / (10 : Rat) ^ e).den ∣ 10 ^ e := by
  have hcast : ((a : Rat)) / (10 : Rat) ^ e = Rat.divInt (a : Int) ((10 ^ e : Nat) : Int) := by
    rw [Rat.divInt_eq_div]
    push_cast
    ring
  rw [hcast]
  have := Rat.den_dvd (a : Int) ((10 ^ e : Nat) : Int)
  exact_mod_cast this

theorem parseNumCore_decimal {l : List Char} {q : Rat} (h : parseNumCore l = some q) :
    DecimalRat q := by
  unfold parseNumCore at h
  split at h
  · split at h
    · exact absurd h (by simp)
    · injection h with h'
      subst h'
      unfold DecimalRat
      rw [Rat.den_natCast]
      exact one_dvd _
  · split at h
    · injection h with h'
      subst h'
      unfold DecimalRat decExp
      exact dvd_pow10_decExp (den_div_pow10_dvd _ _)
    · exact absurd h (by simp)

theorem parseNum_decimal {s : String} {q : Rat} (h : parseNum s = some q) : DecimalRat q := by
  unfold parseNum at h
  split at h
  · exact absurd h (by simp)
  · split at h
    · rw [Option.map_eq_some'] at h
      obtain ⟨x, hx, rfl⟩ := h
      have hdx := parseNumCore_decimal hx
      unfold DecimalRat decExp at hdx ⊢
      rw [Rat.neg_den]
      exact hdx
    · exact parseNumCore_decimal h

theorem parseDate_valid {s : String} {d : Date} (h : parseDate s = some d) : ValidDate d := by
  unfold parseDate at h
  split at h
  · split at h
    · split at h
      · dsimp only at h
        split at h
        · injection h with h'
          subst h'
          unfold ValidDate
          assumption
        · exact absurd h (by simp)
      · exact absurd h (by simp)
    · exact absurd h (by simp)
  · exact absurd h (by simp)

theorem cons_not_naToken {c : Char} {l : List Char}
    (hc : c = '-' ∨ isDigitCh c = true) : String.mk (c :: l) ∉ naTokens := by
  have hch : c ≠ 'N' ∧ c ≠ 'n' ∧ c ≠ '<' := by
    rcases hc with rfl | hd
    · refine ⟨by decide, by decide, by decide⟩
    · refine ⟨?_, ?_, ?_⟩ <;> intro h' <;> rw [h'] at hd <;> exact absurd hd (by decide)
  intro ht
  obtain ⟨h1, h2, h3⟩ := hch
  unfold naTokens at ht
  simp only [List.mem_cons, List.not_mem_nil, or_false] at ht
  rcases ht with h | h | h | h | h | h | h | h | h | h <;> injection h with h
  · exact List.noConfusion h
  · injection h with hc' _
    exact h1 hc'
  · injection h with hc' _
    exact h1 hc'
  · injection h with hc' _
    exact h1 hc'
  · injection h with hc' _
    exact h2 hc'
  · injection h with hc' _
    exact h1 hc'
  · injection h with hc' _
    exact h2 hc'
  · injection h with hc' _
    exact h1 hc'
  · injection h with hc' _
    exact h2 hc'
  · injection h with hc' _
    exact h3 hc'

theorem monthKey_not_naToken (o : Option Date) : monthKey o ∉ naTokens := by
  cases o with
  | none => decide
  | some d => exact cons_not_naToken (Or.inr (isDigitCh_digitChar (Nat.mod_lt _ (by norm_num))))

theorem showDate_not_naToken (d : Date) : showDate d ∉ naTokens :=
  cons_not_naToken (Or.inr (isDigitCh_digitChar (Nat.mod_lt _ (by norm_num))))

theorem showNum_not_naToken (q : Rat) : showNum q ∉ naTokens := by
  unfold showNum
  by_cases hneg : q.num < 0
  · rw [if_pos hneg]
    exact cons_not_naToken (Or.inl rfl)
  · rw [if_neg hneg]
    obtain ⟨c, t, hct⟩ := List.exists_cons_of_ne_nil (natCharsNE_ne_nil
      (q.num.natAbs * (10 ^ decExp q / q.den) / 10 ^ decExp q))
    rw [List.nil_append, hct, List.cons_append]
    apply cons_not_naToken
    refine Or.inr (natCharsNE_digits
      (q.num.natAbs * (10 ^ decExp q / q.den) / 10 ^ decExp q) c ?_)
    rw [hct]
    exact List.mem_cons_self c t

theorem readCell_empty : readCell (String.mk []) = none := by decide

theorem readCell_of_not_naToken {s : String} (h : s ∉ naTokens) : readCell s = some s := by
  unfold readCell
  rw [if_neg h]

theorem strCell_roundtrip {o : Option String} (h : ∀ s, o = some s → s ∉ naTokens) :
    readCell (cellStr o) = o := by
  cases o with
  | none => exact readCell_empty
  | some s => exact readCell_of_not_naToken (h s rfl)

theorem dateCell_roundtrip {o : Option Date} (h : ∀ d, o = some d → ValidDate d) :
    (readCell (cellDate o)).bind parseDate = o := by
  cases o with
  | none =>
    rw [show cellDate none = String.mk [] from rfl, readCell_empty]
    rfl
  | some d =>
    rw [show cellDate (some d) = showDate d from rfl,
      readCell_of_not_naToken (showDate_not_naToken d)]
    exact parseDate_showDate (h d rfl)

theorem numCell_roundtrip {o : Option Rat} (h : ∀ q, o = some q → DecimalRat q) :
    (readCell (cellNum o)).bind parseNum = o := by
  cases o with
  | none =>
    rw [show cellNum none = String.mk [] from rfl, readCell_empty]
    rfl
  | some q =>
    rw [show cellNum (some q) = showNum q from rfl,
      readCell_of_not_naToken (showNum_not_naToken q)]
    exact showNum_parse (h q rfl)

theorem readCell_not_naToken {t s : String} (h : readCell t = some s) : s ∉ naTokens := by
  unfold readCell at h
  split at h
  · exact absurd h (by simp)
  · injection h with h'
    subst h'
    assumption

theorem readField_not_naToken {row : List String} {i : Nat} {s : String}
    (h : readField row i = some s) : s ∉ naTokens := by
  unfold readField at h
  cases hrow : row[i]? with
  | none => rw [hrow] at h; exact absurd h (by simp)
  | some t => rw [hrow] at h; exact readCell_not_naToken h

theorem bind_parseDate_valid {o : Option String} {d : Date}
    (h : o.bind parseDate = some d) : ValidDate d := by
  cases o with
  | none => exact absurd h (by simp)
  | some t => exact parseDate_valid h

theorem bind_parseNum_decimal {o : Option String} {q : Rat}
    (h : o.bind parseNum = some q) : DecimalRat q := by
  cases o with
  | none => exact absurd h (by simp)
  | some t => exact parseNum_decimal h

theorem buildRecord_clean_of_kept (ix : ColIdx) (row : List String)
    (hkept : ((buildRecord ix row).Sales.isSome && (buildRecord ix row).Profit.isSome
      && (buildRecord ix row).Region.isSome && (buildRecord ix row).Segment.isSome
      && (buildRecord ix row).Category.isSome && (buildRecord ix row).SubCategory.isSome
      && (buildRecord ix row).CustomerName.isSome) = true) :
    CleanRec (buildRecord ix row) := by
  simp only [Bool.and_eq_true] at hkept
  obtain ⟨⟨⟨⟨⟨⟨hsa, hpr⟩, hre⟩, hse⟩, hca⟩, hsu⟩, hcu⟩ := hkept
  refine ⟨?_, ?_, ?_, ?_, ?_, ?_, ?_, ?_, ?_, ?_, ?_, hsa, hpr, hre, hse, hca, hsu, hcu⟩
  · intro s hs
    exact readField_not_naToken hs
  · intro d hd
    exact bind_parseDate_valid hd
  · intro d hd
    exact bind_parseDate_valid hd
  · intro q hq
    exact bind_parseNum_decimal hq
  · intro q hq
    exact bind_parseNum_decimal hq
  · intro s hs
    exact readField_not_naToken hs
  · intro s hs
    exact readField_not_naToken hs
  · intro s hs
    exact readField_not_naToken hs
  · intro s hs
    exact readField_not_naToken hs
  · intro s hs
    exact readField_not_naToken hs
  · intro s hs
    have hm : (buildRecord ix row).Month = ix.month.bind (fun i => readField row i) := rfl
    rw [hm] at hs
    cases hmx : ix.month with
    | none =>
      rw [hmx] at hs
      exact absurd hs (by simp)
    | some i =>
      rw [hmx] at hs
      exact readField_not_naToken hs

theorem load_clean {g : List (List String)} {tbl : List Record}
    (h : load_data g = some tbl) : ∀ r ∈ tbl, CleanRec r := by
  unfold load_data at h
  split at h
  · exact absurd h (by simp)
  · dsimp only at h
    split at h
    · injection h with h'
      subst h'
      intro r hr
      unfold dropna at hr
      rw [List.mem_filter] at hr
      obtain ⟨hmem, hpred⟩ := hr
      rw [List.mem_map] at hmem
      obtain ⟨row, _, rfl⟩ := hmem
      exact buildRecord_clean_of_kept _ row hpred
    · exact absurd h (by simp)

theorem buildRecord_writeRow {r : Record} (h : CleanRec r) :
    buildRecord ⟨0, 1, 2, 3, 4, 5, 6, 7, 8, 9, some 10⟩ (writeRow r) = r := by
  have g0 : readField (writeRow r) 0 = readCell (cellStr r.OrderID) := rfl
  have g1 : readField (writeRow r) 1 = readCell (cellDate r.OrderDate) := rfl
  have g2 : readField (writeRow r) 2 = readCell (cellDate r.ShipDate) := rfl
  have g3 : readField (writeRow r) 3 = readCell (cellNum r.Sales) := rfl
  have g4 : readField (writeRow r) 4 = readCell (cellNum r.Profit) := rfl
  have g5 : readField (writeRow r) 5 = readCell (cellStr r.Region) := rfl
  have g6 : readField (writeRow r) 6 = readCell (cellStr r.Segment) := rfl
  have g7 : readField (writeRow r) 7 = readCell (cellStr r.Category) := rfl
  have g8 : readField (writeRow r) 8 = readCell (cellStr r.SubCategory) := rfl
  have g9 : readField (writeRow r) 9 = readCell (cellStr r.CustomerName) := rfl
  have g10 : readField (writeRow r) 10 = readCell (cellStr r.Month) := rfl
  show Record.mk (readField (writeRow r) 0) ((readField (writeRow r) 1).bind parseDate)
    ((readField (writeRow r) 2).bind parseDate) ((readField (writeRow r) 3).bind parseNum)
    ((readField (writeRow r) 4).bind parseNum) (readField (writeRow r) 5)
    (readField (writeRow r) 6) (readField (writeRow r) 7) (readField (writeRow r) 8)
    (readField (writeRow r) 9) ((some 10).bind (fun i => readField (writeRow r) i)) = r
  rw [g0, g5, g6, g7, g8, g9, g1, g2, g3, g4]
  have gm : (some 10).bind (fun i => readField (writeRow r) i) = readCell (cellStr r.Month) := g10
  rw [gm]
  rw [strCell_roundtrip h.oid, strCell_roundtrip h.region, strCell_roundtrip h.segment,
    strCell_roundtrip h.category, strCell_roundtrip h.subcat, strCell_roundtrip h.customer,
    strCell_roundtrip h.month, dateCell_roundtrip h.odate, dateCell_roundtrip h.sdate,
    numCell_roundtrip h.sales, numCell_roundtrip h.profit]

theorem dropna_of_clean {rs : List Record} (h : ∀ r ∈ rs, CleanRec r) : dropna rs = rs := by
  unfold dropna
  rw [List.filter_eq_self]
  intro r hr
  have hc := h r hr
  simp [hc.salesSome, hc.profitSome, hc.regionSome, hc.segmentSome, hc.categorySome,
    hc.subcatSome, hc.customerSome]

theorem load_data_to_csv {rs : List Record} (h : ∀ r ∈ rs, CleanRec r) :
    load_data (to_csv rs) = some rs := by
  have f0 : (exportHeader.map normalizeCol).findIdx? (· == (r"OrderID")) = some 0 := by decide
  have f1 : (exportHeader.map normalizeCol).findIdx? (· == (r"OrderDate")) = some 1 := by decide
  have f2 : (exportHeader.map normalizeCol).findIdx? (· == (r"ShipDate")) = some 2 := by decide
  have f3 : (exportHeader.map normalizeCol).findIdx? (· == (r"Sales")) = some 3 := by decide
  have f4 : (exportHeader.map normalizeCol).findIdx? (· == (r"Profit")) = some 4 := by decide
  have f5 : (exportHeader.map normalizeCol).findIdx? (· == (r"Region")) = some 5 := by decide
  have f6 : (exportHeader.map normalizeCol).findIdx? (· == (r"Segment")) = some 6 := by decide
  have f7 : (exportHeader.map normalizeCol).findIdx? (· == (r"Category")) = some 7 := by decide
  have f8 : (exportHeader.map normalizeCol).findIdx? (· == (r"SubCategory")) = some 8 := by decide
  have f9 : (exportHeader.map normalizeCol).findIdx? (· == (r"CustomerName")) = some 9 := by decide
  have f10 : (exportHeader.map normalizeCol).findIdx? (· == (r"Month")) = some 10 := by decide
  unfold load_data to_csv
  dsimp only
  rw [f0, f1, f2, f3, f4, f5, f6, f7, f8, f9, f10]
  dsimp only
  rw [List.map_map]
  have hmap : rs.map (buildRecord ⟨0, 1, 2, 3, 4, 5, 6, 7, 8, 9, some 10⟩ ∘ writeRow) = rs := by
    conv_rhs => rw [← List.map_id rs]
    apply List.map_congr_left
    intro r hr
    exact buildRecord_writeRow (h r hr)
  rw [hmap, dropna_of_clean h]

theorem lexLe_of_key_lt_of_ge {x y : String × Rat} (hk : x.1 < y.1) (hv : y.2 ≤ x.2) :
    lexLe x y := by
  rcases lt_or_eq_of_le hv with h | h
  · exact Or.inl h
  · exact Or.inr ⟨h.symm, le_of_lt hk⟩

theorem lexLe_snd_le {x y : String × Rat} (h : lexLe x y) : y.2 ≤ x.2 := by
  rcases h with h | ⟨h, _⟩
  · exact le_of_lt h
  · exact le_of_eq h.symm

theorem orderedInsert_desc_pairwise {x : String × Rat} {l : List (String × Rat)}
    (hkey : ∀ y ∈ l, x.1 < y.1) (hl : l.Pairwise lexLe) :
    (List.orderedInsert (fun a b => b.2 ≤ a.2) x l).Pairwise lexLe := by
  induction l with
  | nil => simp [lexLe]
  | cons b m ih =>
    rw [List.pairwise_cons] at hl
    obtain ⟨hbm, hm⟩ := hl
    show (if b.2 ≤ x.2 then x :: b :: m else
      b :: List.orderedInsert (fun a b => b.2 ≤ a.2) x m).Pairwise lexLe
    split
    · rename_i hbx
      rw [List.pairwise_cons]
      constructor
      · intro y hy
        rcases List.mem_cons.mp hy with rfl | hym
        · exact lexLe_of_key_lt_of_ge (hkey y (by simp)) hbx
        · exact lexLe_of_key_lt_of_ge (hkey y (by simp [hym]))
            (le_trans (lexLe_snd_le (hbm y hym)) hbx)
      · rw [List.pairwise_cons]
        exact ⟨hbm, hm⟩
    · rename_i hbx
      rw [List.pairwise_cons]
      constructor
      · intro y hy
        have hy' := (List.perm_orderedInsert (fun a b => b.2 ≤ a.2) x m).mem_iff.mp hy
        rcases List.mem_cons.mp hy' with rfl | hym
        · exact Or.inl (lt_of_not_le hbx)
        · exact hbm y hym
      · exact ih (fun y hy => hkey y (by simp [hy])) hm

theorem insertionSort_desc_pairwise {l : List (String × Rat)}
    (h : l.Pairwise (fun a b => a.1 < b.1)) :
    (List.insertionSort (fun a b => b.2 ≤ a.2) l).Pairwise lexLe := by
  induction l with
  | nil => simp
  | cons x m ih =>
    rw [List.pairwise_cons] at h
    obtain ⟨hxm, hm⟩ := h
    show (List.orderedInsert (fun a b => b.2 ≤ a.2) x
      (List.insertionSort (fun a b => b.2 ≤ a.2) m)).Pairwise lexLe
    apply orderedInsert_desc_pairwise
    · intro y hy
      exact hxm y ((List.perm_insertionSort (fun a b => b.2 ≤ a.2) m).mem_iff.mp hy)
    · exact ih hm

theorem sortValuesDesc_eq_lex_sort {l : List (String × Rat)}
    (h : l.Pairwise (fun a b => a.1 < b.1)) :
    sortValuesDesc l = List.insertionSort lexLe l := by
  apply List.eq_of_perm_of_sorted (r := lexLe)
  · exact (List.perm_insertionSort _ l).trans (List.perm_insertionSort lexLe l).symm
  · exact insertionSort_desc_pairwise h
  · exact List.sorted_insertionSort lexLe l

theorem groupKeys_nodup (key : Record → Option String) (rs : List Record) :
    (groupKeys key rs).Nodup :=
  (List.perm_insertionSort _ _).nodup_iff.mpr (List.nodup_dedup _)

theorem mem_groupKeys {key : Record → Option String} {rs : List Record} {k : String} :
    k ∈ groupKeys key rs ↔ ∃ r ∈ rs, key r = some k := by
  unfold groupKeys
  rw [(List.perm_insertionSort _ _).mem_iff, List.mem_dedup, List.mem_filterMap]

theorem groupKeys_sorted (key : Record → Option String) (rs : List Record) :
    (groupKeys key rs).Pairwise (fun a b : String => a < b) := by
  have hs : ((rs.filterMap key).dedup.insertionSort (fun a b : String => a ≤ b)).Sorted
      (fun a b : String => a ≤ b) := List.sorted_insertionSort _ _
  exact List.Sorted.lt_of_le hs (groupKeys_nodup key rs)

theorem groupSum_keys_lt (key : Record → Option String) (f : Record → Option Rat)
    (rs : List Record) : (groupSum key f rs).Pairwise (fun a b => a.1 < b.1) := by
  unfold groupSum
  apply List.Pairwise.map
  · intro a b hab
    exact hab
  · exact groupKeys_sorted key rs

theorem mem_groupSum {key : Record → Option String} {f : Record → Option Rat}
    {rs : List Record} {p : String × Rat} :
    p ∈ groupSum key f rs ↔ p.1 ∈ groupKeys key rs ∧
      p.2 = colSum f (rs.filter (fun r => key r == some p.1)) := by
  unfold groupSum
  rw [List.mem_map]
  constructor
  · rintro ⟨k, hk, rfl⟩
    exact ⟨hk, rfl⟩
  · rintro ⟨hk, hv⟩
    refine ⟨p.1, hk, ?_⟩
    rw [← hv]

theorem addMonth_month (r : Record) : (addMonth r).Month = some (monthKey r.OrderDate) := rfl

theorem monthly_map_fst (rs : List Record) :
    (monthly rs).map Prod.fst = groupKeys (fun r => r.Month) (addMonthAll rs) := by
  unfold monthly
  rw [List.map_map]
  exact List.map_id _

theorem mem_groupKeys_month {rs : List Record} {k : String} :
    k ∈ groupKeys (fun r => r.Month) (addMonthAll rs) ↔ ∃ r ∈ rs, monthKey r.OrderDate = k := by
  rw [mem_groupKeys]
  unfold addMonthAll
  constructor
  · rintro ⟨r', hr', hk⟩
    rw [List.mem_map] at hr'
    obtain ⟨r, hr, rfl⟩ := hr'
    rw [addMonth_month] at hk
    exact ⟨r, hr, Option.some.inj hk⟩
  · rintro ⟨r, hr, hk⟩
    exact ⟨addMonth r, List.mem_map_of_mem addMonth hr, by rw [addMonth_month, hk]⟩

theorem addMonthAll_filter_month (rs : List Record) (k : String) :
    (addMonthAll rs).filter (fun r => r.Month == some k)
      = addMonthAll (rs.filter (fun r => monthKey r.OrderDate == k)) := by
  unfold addMonthAll
  rw [List.filter_map, List.filter_congr]
  intro r _
  show ((addMonth r).Month == some k) = (monthKey r.OrderDate == k)
  rw [addMonth_month]
  cases heq : monthKey r.OrderDate == k with
  | true => rw [beq_iff_eq] at heq; rw [heq]; simp
  | false =>
    rw [beq_eq_false_iff_ne] at heq
    apply beq_eq_false_iff_ne.mpr
    intro hcontra
    exact heq (Option.some.inj hcontra)

theorem colSum_addMonthAll_sales (rs : List Record) :
    colSum (fun r => r.Sales) (addMonthAll rs) = colSum (fun r => r.Sales) rs := by
  unfold colSum addMonthAll
  rw [List.filterMap_map]
  rfl

theorem colSum_addMonthAll_profit (rs : List Record) :
    colSum (fun r => r.Profit) (addMonthAll rs) = colSum (fun r => r.Profit) rs := by
  unfold colSum addMonthAll
  rw [List.filterMap_map]
  rfl

theorem mem_monthly {rs : List Record} {e : String × Rat × Rat} :
    e ∈ monthly rs ↔ (∃ r ∈ rs, monthKey r.OrderDate = e.1) ∧
      e.2.1 = colSum (fun r => r.Sales) (rs.filter (fun r => monthKey r.OrderDate == e.1)) ∧
      e.2.2 = colSum (fun r => r.Profit) (rs.filter (fun r => monthKey r.OrderDate == e.1)) := by
  unfold monthly
  rw [List.mem_map]
  constructor
  · rintro ⟨k, hk, rfl⟩
    refine ⟨mem_groupKeys_month.mp hk, ?_, ?_⟩
    · rw [show ((k, colSum (fun r => r.Sales) ((addMonthAll rs).filter (fun r => r.Month == some k)),
        colSum (fun r => r.Profit) ((addMonthAll rs).filter (fun r => r.Month == some k))) :
          String × Rat × Rat).1 = k from rfl]
      rw [addMonthAll_filter_month, colSum_addMonthAll_sales]
    · rw [show ((k, colSum (fun r => r.Sales) ((addMonthAll rs).filter (fun r => r.Month == some k)),
        colSum (fun r => r.Profit) ((addMonthAll rs).filter (fun r => r.Month == some k))) :
          String × Rat × Rat).1 = k from rfl]
      rw [addMonthAll_filter_month, colSum_addMonthAll_profit]
  · rintro ⟨hkey, hs, hp⟩
    refine ⟨e.1, mem_groupKeys_month.mpr hkey, ?_⟩
    rw [addMonthAll_filter_month, colSum_addMonthAll_sales, colSum_addMonthAll_profit, ← hs, ← hp]

theorem CleanRec_addMonth {r : Record} (h : CleanRec r) : CleanRec (addMonth r) := by
  refine ⟨h.oid, h.odate, h.sdate, h.sales, h.profit, h.region, h.segment, h.category,
    h.subcat, h.customer, ?_, h.salesSome, h.profitSome, h.regionSome, h.segmentSome,
    h.categorySome, h.subcatSome, h.customerSome⟩
  intro s hs
  rw [addMonth_month] at hs
  injection hs with hs'
  rw [← hs']
  exact monthKey_not_naToken r.OrderDate

theorem mem_applyFilter_clean {rs : List Record} {selR selC selS : List String} {r : Record}
    (h : r ∈ applyFilter rs selR selC selS) : r ∈ rs := by
  unfold applyFilter at h
  exact (List.mem_filter.mp h).1

theorem contains_iff_mem_str {l : List String} {v : String} : l.contains v = true ↔ v ∈ l := by
  rw [List.contains_iff_exists_mem_beq]
  constructor
  · rintro ⟨w, hw, hbeq⟩
    rw [beq_iff_eq] at hbeq
    rw [hbeq]
    exact hw
  · intro hv
    exact ⟨v, hv, beq_iff_eq.mpr rfl⟩

theorem isin_iff {o : Option String} {sel : List String} :
    isin o sel = true ↔ ∃ v, o = some v ∧ v ∈ sel := by
  cases o with
  | none =>
    unfold isin
    simp
  | some v =>
    unfold isin
    rw [contains_iff_mem_str]
    constructor
    · intro hv
      exact ⟨v, rfl, hv⟩
    · rintro ⟨w, hw, hmem⟩
      injection hw with hw'
      rw [hw']
      exact hmem

theorem isin_nil (o : Option String) : isin o [] = false := by
  cases o <;> rfl

theorem colSum_nonneg_mono {f : Record → Option Rat} {rs : List Record}
    (pred : Record → Bool) (h : ∀ r ∈ rs, ∀ q, f r = some q → 0 ≤ q) :
    colSum f (rs.filter pred) ≤ colSum f rs := by
  unfold colSum
  apply List.Sublist.sum_le_sum
  · exact List.Sublist.filterMap f (List.filter_sublist rs)
  · intro q hq
    rw [List.mem_filterMap] at hq
    obtain ⟨r, hr, hfr⟩ := hq
    exact h r hr q hfr

/-- C1: for every table and selection triple, a record of the table is in the
filtered subset iff its Region is among the selected Regions AND its Category
among the selected Categories AND its SubCategory among the selected
SubCategories; and if any one selection list is empty the subset is empty
regardless of the other two. -/
theorem claim_C1 :
    (∀ (rs : List Record) (selR selC selS : List String) (r : Record), r ∈ rs →
      (r ∈ applyFilter rs selR selC selS ↔
        (∃ v, r.Region = some v ∧ v ∈ selR) ∧ (∃ v, r.Category = some v ∧ v ∈ selC) ∧
          (∃ v, r.SubCategory = some v ∧ v ∈ selS))) ∧
    (∀ rs selC selS, applyFilter rs [] selC selS = []) ∧
    (∀ rs selR selS, applyFilter rs selR [] selS = []) ∧
    (∀ rs selR selC, applyFilter rs selR selC [] = []) := by
  refine ⟨?_, ?_, ?_, ?_⟩
  · intro rs selR selC selS r hr
    unfold applyFilter
    rw [List.mem_filter, Bool.and_eq_true, Bool.and_eq_true, isin_iff, isin_iff, isin_iff]
    constructor
    · rintro ⟨_, ⟨h1, h2⟩, h3⟩
      exact ⟨h1, h2, h3⟩
    · rintro ⟨h1, h2, h3⟩
      exact ⟨hr, ⟨h1, h2⟩, h3⟩
  · intro rs selC selS
    unfold applyFilter
    rw [List.filter_eq_nil_iff]
    intro r _
    simp [isin_nil]
  · intro rs selR selS
    unfold applyFilter
    rw [List.filter_eq_nil_iff]
    intro r _
    simp [isin_nil]
  · intro rs selR selC
    unfold applyFilter
    rw [List.filter_eq_nil_iff]
    intro r _
    simp [isin_nil]

/-- Witness for C1 at a concrete table and selections. -/
theorem claim_C1_witness :
    (mkRec (String.mk ['A']) 100 ∈
        applyFilter [mkRec (String.mk ['A']) 100] [String.mk ['W']] [String.mk ['T']]
          [String.mk ['P']] ↔
      (∃ v, (mkRec (String.mk ['A']) 100).Region = some v ∧ v ∈ [String.mk ['W']]) ∧
        (∃ v, (mkRec (String.mk ['A']) 100).Category = some v ∧ v ∈ [String.mk ['T']]) ∧
        (∃ v, (mkRec (String.mk ['A']) 100).SubCategory = some v ∧ v ∈ [String.mk ['P']])) ∧
    applyFilter [mkRec (String.mk ['A']) 100] [] [String.mk ['T']] [String.mk ['P']] = [] :=
  ⟨claim_C1.1 [mkRec (String.mk ['A']) 100] [String.mk ['W']] [String.mk ['T']]
      [String.mk ['P']] (mkRec (String.mk ['A']) 100) (by decide),
    claim_C1.2.1 [mkRec (String.mk ['A']) 100] [String.mk ['T']] [String.mk ['P']]⟩

/-- C2: every record retained by the loader has non-missing Sales, Profit,
Region, Segment, Category, SubCategory and CustomerName. -/
theorem claim_C2 (g : List (List String)) (tbl : List Record) (h : load_data g = some tbl) :
    ∀ r ∈ tbl, r.Sales.isSome = true ∧ r.Profit.isSome = true ∧ r.Region.isSome = true ∧
      r.Segment.isSome = true ∧ r.Category.isSome = true ∧ r.SubCategory.isSome = true ∧
      r.CustomerName.isSome = true := by
  intro r hr
  have hc := load_clean h r hr
  exact ⟨hc.salesSome, hc.profitSome, hc.regionSome, hc.segmentSome, hc.categorySome,
    hc.subcatSome, hc.customerSome⟩

/-- Witness for C2 on a concrete input grid. -/
theorem claim_C2_witness :
    demoRec.Sales.isSome = true ∧ demoRec.Profit.isSome = true ∧ demoRec.Region.isSome = true ∧
      demoRec.Segment.isSome = true ∧ demoRec.Category.isSome = true ∧
      demoRec.SubCategory.isSome = true ∧ demoRec.CustomerName.isSome = true :=
  claim_C2 demoGrid demoTable (by with_unfolding_all decide) demoRec (by with_unfolding_all decide)

/-- C6: on the empty subset every aggregation yields the empty sequence, the
KPI sums are 0 and the distinct-order count is 0 (all functions are total, so
nothing can raise). -/
theorem claim_C6 :
    top_customers [] = [] ∧ segment_sales [] = [] ∧ monthly [] = [] ∧ region_sales [] = [] ∧
      category_sales [] = [] ∧ subcategory_profit [] = [] ∧ total_sales [] = 0 ∧
      total_profit [] = 0 ∧ n_orders [] = 0 := by
  refine ⟨rfl, rfl, rfl, rfl, rfl, rfl, rfl, rfl, rfl⟩

/-- C7: filtering with the default selections (the sorted distinct values of
each dimension, as computed at load time) returns the cleaned table itself,
record for record and in order. -/
theorem claim_C7 (g : List (List String)) (tbl : List Record) (h : load_data g = some tbl) :
    applyFilter tbl (defaultSel (fun r => r.Region) tbl) (defaultSel (fun r => r.Category) tbl)
      (defaultSel (fun r => r.SubCategory) tbl) = tbl := by
  unfold applyFilter
  rw [List.filter_eq_self]
  intro r hr
  have hc := load_clean h r hr
  obtain ⟨vR, hvR⟩ := Option.isSome_iff_exists.mp hc.regionSome
  obtain ⟨vC, hvC⟩ := Option.isSome_iff_exists.mp hc.categorySome
  obtain ⟨vS, hvS⟩ := Option.isSome_iff_exists.mp hc.subcatSome
  have hmem : ∀ (key : Record → Option String) (v : String), key r = some v →
      v ∈ defaultSel key tbl := by
    intro key v hv
    unfold defaultSel
    rw [(List.perm_insertionSort _ _).mem_iff, List.mem_dedup, List.mem_filterMap]
    exact ⟨r, hr, hv⟩
  rw [Bool.and_eq_true, Bool.and_eq_true]
  refine ⟨⟨?_, ?_⟩, ?_⟩
  · rw [isin_iff]
    exact ⟨vR, hvR, hmem (fun r => r.Region) vR hvR⟩
  · rw [isin_iff]
    exact ⟨vC, hvC, hmem (fun r => r.Category) vC hvC⟩
  · rw [isin_iff]
    exact ⟨vS, hvS, hmem (fun r => r.SubCategory) vS hvS⟩

/-- Witness for C7 on a concrete loaded table. -/
theorem claim_C7_witness :
    applyFilter demoTable (defaultSel (fun r => r.Region) demoTable)
      (defaultSel (fun r => r.Category) demoTable)
      (defaultSel (fun r => r.SubCategory) demoTable) = demoTable :=
  claim_C7 demoGrid demoTable (by with_unfolding_all decide)

/-- C8: when every Sales value of the subset is non-negative, the Sales mass
of the records feeding the Top-N-by-customer result cannot exceed the Sales
total of the whole subset. -/
theorem claim_C8 (rs : List Record) (h : ∀ r ∈ rs, ∀ q, r.Sales = some q → 0 ≤ q) :
    colSum (fun r => r.Sales)
        (rs.filter (fun r => isin r.CustomerName ((top_customers rs).map Prod.fst)))
      ≤ total_sales rs := by
  unfold total_sales
  exact colSum_nonneg_mono _ h

/-- Witness for C8 at a concrete subset. -/
theorem claim_C8_witness :
    colSum (fun r => r.Sales)
        (([mkRec (String.mk ['A']) 100]).filter
          (fun r => isin r.CustomerName ((top_customers [mkRec (String.mk ['A']) 100]).map
            Prod.fst)))
      ≤ total_sales [mkRec (String.mk ['A']) 100] :=
  claim_C8 [mkRec (String.mk ['A']) 100] (by
    intro r hr q hq
    rw [List.mem_singleton] at hr
    subst hr
    injection hq with hq'
    rw [← hq']
    norm_num)

/-- C9: one render pass (filter, Month-column derivation on the derived
frame, all aggregations, export) leaves the loaded source table untouched:
the session state returned by `runDashboard` carries the source frame
unchanged.  (Pandas boolean-mask indexing copies, so the line-178 column
assignment mutates only the derived frame; the model reflects that by
construction.) -/
theorem claim_C9 (df : List Record) (selR selC selS : List String) :
    (runDashboard df selR selC selS).1 = df := rfl

/-- C3 counterexample: on the subset [(CustomerName="B", Sales=50),
(CustomerName="A", Sales=50)] the claim's tie-break (first row-encounter
order, so "B" first) predicts [("B",50),("A",50)], but the program sorts the
groupby's alphabetically ordered keys stably by value, producing
[("A",50),("B",50)]. -/
theorem claim_C3_counterexample :
    top_customers [mkRec (String.mk ['B']) 50, mkRec (String.mk ['A']) 50]
        = [(String.mk ['A'], 50), (String.mk ['B'], 50)] ∧
      ([(String.mk ['A'], (50 : Rat)), (String.mk ['B'], 50)] : List (String × Rat))
        ≠ [(String.mk ['B'], 50), (String.mk ['A'], 50)] := by
  constructor
  · with_unfolding_all decide
  · decide

/-- C3 (amended): Top-N-by-customer groups by CustomerName, sums Sales,
sorts descending by the sum and takes the first 5; ties are broken by
customer name ascending (the groupby's sorted key order, preserved by the
stable sort) — not by first row-encounter order.  The concrete scenario of
the claim, [("A",130),("B",50)], is unaffected by the amendment. -/
theorem claim_C3 (rs : List Record) :
    top_customers rs = (List.insertionSort lexLe
        (groupSum (fun r => r.CustomerName) (fun r => r.Sales) rs)).take 5 ∧
      (∀ p ∈ top_customers rs,
        (∃ r ∈ rs, r.CustomerName = some p.1) ∧
          p.2 = colSum (fun r => r.Sales) (rs.filter (fun r => r.CustomerName == some p.1))) ∧
      (top_customers rs).Pairwise lexLe ∧
      (top_customers rs).length = min 5 (groupKeys (fun r => r.CustomerName) rs).length ∧
      (∀ p ∈ top_customers rs, ∀ k ∈ groupKeys (fun r => r.CustomerName) rs,
        k ∉ (top_customers rs).map Prod.fst →
          colSum (fun r => r.Sales) (rs.filter (fun r => r.CustomerName == some k)) ≤ p.2) ∧
      top_customers [mkRec (String.mk ['A']) 100, mkRec (String.mk ['B']) 50,
          mkRec (String.mk ['A']) 30]
        = [(String.mk ['A'], 130), (String.mk ['B'], 50)] := by
  have hG := groupSum_keys_lt (fun r => r.CustomerName) (fun r => r.Sales) rs
  have h1 : top_customers rs = (List.insertionSort lexLe
      (groupSum (fun r => r.CustomerName) (fun r => r.Sales) rs)).take 5 := by
    unfold top_customers
    rw [sortValuesDesc_eq_lex_sort hG]
  have hmemS : ∀ p ∈ top_customers rs,
      p ∈ groupSum (fun r => r.CustomerName) (fun r => r.Sales) rs := by
    intro p hp
    rw [h1] at hp
    exact (List.perm_insertionSort lexLe _).mem_iff.mp (List.mem_of_mem_take hp)
  refine ⟨h1, ?_, ?_, ?_, ?_, ?_⟩
  · intro p hp
    obtain ⟨hk, hv⟩ := mem_groupSum.mp (hmemS p hp)
    exact ⟨mem_groupKeys.mp hk, hv⟩
  · rw [h1]
    exact (List.sorted_insertionSort lexLe _).sublist (List.take_sublist _ _)
  · rw [h1, List.length_take, List.length_insertionSort]
    unfold groupSum
    rw [List.length_map]
  · intro p hp k hk hknot
    have hpair : ((k, colSum (fun r => r.Sales)
        (rs.filter (fun r => r.CustomerName == some k))) : String × Rat)
        ∈ groupSum (fun r => r.CustomerName) (fun r => r.Sales) rs :=
      mem_groupSum.mpr ⟨hk, rfl⟩
    have hpairS := (List.perm_insertionSort lexLe
      (groupSum (fun r => r.CustomerName) (fun r => r.Sales) rs)).mem_iff.mpr hpair
    have hsorted := List.sorted_insertionSort lexLe
      (groupSum (fun r => r.CustomerName) (fun r => r.Sales) rs)
    rw [← List.take_append_drop 5 (List.insertionSort lexLe
      (groupSum (fun r => r.CustomerName) (fun r => r.Sales) rs))] at hpairS hsorted
    rcases List.mem_append.mp hpairS with hin | hin
    · exfalso
      apply hknot
      rw [h1]
      exact List.mem_map_of_mem Prod.fst hin
    · have hlex := (List.pairwise_append.mp hsorted).2.2 p (by rw [h1] at hp; exact hp) _ hin
      exact lexLe_snd_le hlex
  · with_unfolding_all decide

/-- Witness for C3 (amended) at a concrete subset, discharging the
membership hypothesis of the grouping-correctness conjunct. -/
theorem claim_C3_witness :
    (∃ r ∈ [mkRec (String.mk ['A']) 100],
        r.CustomerName = some ((String.mk ['A'], (100 : Rat)) : String × Rat).1) ∧
      ((String.mk ['A'], (100 : Rat)) : String × Rat).2 = colSum (fun r => r.Sales)
        (([mkRec (String.mk ['A']) 100]).filter
          (fun r => r.CustomerName == some ((String.mk ['A'], (100 : Rat)) : String × Rat).1)) :=
  (claim_C3 [mkRec (String.mk ['A']) 100]).2.1 (String.mk ['A'], 100)
    (by with_unfolding_all decide)

/-- C4: exporting the current filtered subset (which carries the Month
column assigned on line 178) to delimited text and re-parsing it with the
same loader rules — column-name normalization, the type coercions, the
mandatory-field filter — reproduces the subset exactly; in particular the
mandatory-field filter drops none of its rows.  Cell serialization is
modelled from the spec (pandas value-faithful printing). -/
theorem claim_C4 (g : List (List String)) (tbl : List Record) (selR selC selS : List String)
    (h : load_data g = some tbl) :
    load_data (to_csv (addMonthAll (applyFilter tbl selR selC selS)))
        = some (addMonthAll (applyFilter tbl selR selC selS)) ∧
      dropna (addMonthAll (applyFilter tbl selR selC selS))
        = addMonthAll (applyFilter tbl selR selC selS) := by
  have hclean : ∀ r ∈ addMonthAll (applyFilter tbl selR selC selS), CleanRec r := by
    intro r hr
    unfold addMonthAll at hr
    rw [List.mem_map] at hr
    obtain ⟨r0, hr0, rfl⟩ := hr
    exact CleanRec_addMonth (load_clean h r0 (mem_applyFilter_clean hr0))
  exact ⟨load_data_to_csv hclean, dropna_of_clean hclean⟩

/-- Witness for C4 on a concrete loaded table and full selections. -/
theorem claim_C4_witness :
    load_data (to_csv (addMonthAll (applyFilter demoTable [String.mk ['W', 'e', 's', 't']]
          [String.mk ['T', 'e', 'c', 'h']] [String.mk ['P', 'h', 'o', 'n', 'e', 's']])))
        = some (addMonthAll (applyFilter demoTable [String.mk ['W', 'e', 's', 't']]
          [String.mk ['T', 'e', 'c', 'h']] [String.mk ['P', 'h', 'o', 'n', 'e', 's']])) ∧
      dropna (addMonthAll (applyFilter demoTable [String.mk ['W', 'e', 's', 't']]
          [String.mk ['T', 'e', 'c', 'h']] [String.mk ['P', 'h', 'o', 'n', 'e', 's']]))
        = addMonthAll (applyFilter demoTable [String.mk ['W', 'e', 's', 't']]
          [String.mk ['T', 'e', 'c', 'h']] [String.mk ['P', 'h', 'o', 'n', 'e', 's']]) :=
  claim_C4 demoGrid demoTable [String.mk ['W', 'e', 's', 't']] [String.mk ['T', 'e', 'c', 'h']]
    [String.mk ['P', 'h', 'o', 'n', 'e', 's']] (by with_unfolding_all decide)

/-- C5: the time series maps each record to its calendar year-month bucket
(the day is discarded), groups by bucket in ascending key order summing
Sales and Profit per bucket, and two records of the same year-month land in
one combined bucket — e.g. 2020-01-15 and 2020-01-28 both in "2020-01" with
their Sales added. -/
theorem claim_C5 (rs : List Record) :
    (∀ y m d1 d2, monthKey (some ⟨y, m, d1⟩) = monthKey (some ⟨y, m, d2⟩)) ∧
      ((monthly rs).map Prod.fst).Pairwise (fun a b : String => a < b) ∧
      (∀ e ∈ monthly rs, (∃ r ∈ rs, monthKey r.OrderDate = e.1) ∧
        e.2.1 = colSum (fun r => r.Sales) (rs.filter (fun r => monthKey r.OrderDate == e.1)) ∧
        e.2.2 = colSum (fun r => r.Profit) (rs.filter (fun r => monthKey r.OrderDate == e.1))) ∧
      (∀ r ∈ rs, monthKey r.OrderDate ∈ (monthly rs).map Prod.fst) ∧
      monthly [mkRec (String.mk ['A']) 100,
          { mkRec (String.mk ['B']) 30 with OrderDate := some ⟨2020, 1, 28⟩ }]
        = [((r"2020-01"), 130, 0)] := by
  refine ⟨?_, ?_, ?_, ?_, ?_⟩
  · intro y m d1 d2
    rfl
  · rw [monthly_map_fst]
    exact groupKeys_sorted _ _
  · intro e he
    exact mem_monthly.mp he
  · intro r hr
    rw [monthly_map_fst]
    exact mem_groupKeys_month.mpr ⟨r, hr, rfl⟩
  · with_unfolding_all decide

/-- Witness for C5 at a concrete subset, discharging the membership
hypothesis of the every-record-is-bucketed conjunct. -/
theorem claim_C5_witness :
    monthKey (mkRec (String.mk ['A']) 100).OrderDate
      ∈ (monthly [mkRec (String.mk ['A']) 100]).map Prod.fst :=
  (claim_C5 [mkRec (String.mk ['A']) 100]).2.2.2.1 (mkRec (String.mk ['A']) 100)
    (by with_unfolding_all decide)

/-- C10: a record whose OrderDate failed to parse but whose seven mandatory
fields are present survives the mandatory-field filter (its date is the
`none`/NaT marker); in the time series all such records fall into the single
extra bucket keyed `"NaT"`, whose sums cover exactly the missing-date
records; and that key is distinct from and sorts after every
`"YYYY-MM"` key of a real date. -/
theorem claim_C10 :
    (∀ (cs : List Record) (r : Record), r ∈ cs → r.OrderDate = none →
      r.Sales.isSome = true → r.Profit.isSome = true → r.Region.isSome = true →
      r.Segment.isSome = true → r.Category.isSome = true → r.SubCategory.isSome = true →
      r.CustomerName.isSome = true → r ∈ dropna cs) ∧
      monthKey none = (r"NaT") ∧
      (∀ (rs : List Record) (r : Record), r ∈ rs → r.OrderDate = none →
        (r"NaT") ∈ (monthly rs).map Prod.fst) ∧
      (∀ (rs : List Record), ∀ e ∈ monthly rs, e.1 = (r"NaT") →
        e.2.1 = colSum (fun r => r.Sales) (rs.filter (fun r => r.OrderDate.isNone))) ∧
      (∀ d, monthKey (some d) ≠ (r"NaT")) ∧
      (∀ d, monthKey (some d) < (r"NaT")) := by
  refine ⟨?_, rfl, ?_, ?_, ?_, ?_⟩
  · intro cs r hr hdate hs hp hre hseg hcat hsub hcust
    unfold dropna
    rw [List.mem_filter]
    refine ⟨hr, ?_⟩
    rw [hs, hp, hre, hseg, hcat, hsub, hcust]
    rfl
  · intro rs r hr hdate
    rw [monthly_map_fst]
    apply mem_groupKeys_month.mpr
    refine ⟨r, hr, ?_⟩
    rw [hdate]
    rfl
  · intro rs e he hkey
    rw [(mem_monthly.mp he).2.1, hkey]
    apply congrArg
    apply List.filter_congr
    intro r _
    cases hod : r.OrderDate with
    | none => decide
    | some d =>
      show (monthKey (some d) == monthKey none) = false
      rw [beq_eq_false_iff_ne]
      exact monthKey_some_ne_nat d
  · exact fun d => monthKey_some_ne_nat d
  · exact fun d => monthKey_some_lt_nat d

/-- Witness for C10 at a concrete missing-date record. -/
theorem claim_C10_witness :
    ({ mkRec (String.mk ['A']) 100 with OrderDate := none }
        ∈ dropna [{ mkRec (String.mk ['A']) 100 with OrderDate := none }]) ∧
      (r"NaT") ∈ (monthly [{ mkRec (String.mk ['A']) 100 with OrderDate := none }]).map
        Prod.fst := by
  constructor
  · exact claim_C10.1 [{ mkRec (String.mk ['A']) 100 with OrderDate := none }]
      { mkRec (String.mk ['A']) 100 with OrderDate := none } (by with_unfolding_all decide)
      rfl (by decide) (by with_unfolding_all decide) (by decide) (by decide) (by decide)
      (by decide) (by decide)
  · exact claim_C10.2.2.1 [{ mkRec (String.mk ['A']) 100 with OrderDate := none }]
      { mkRec (String.mk ['A']) 100 with OrderDate := none } (by with_unfolding_all decide) rfl
